import Mathlib

/-!
Verification of the interactive MCP research client (`src/client.py`).

The development shallowly embeds the pure core of the client:

* `extract_meta_command` — the command classifier (client.py, lines 63-80);
* `parse_arguments`      — the argument parser (client.py, lines 85-122),
  together with a concrete model of Python's `json.loads` restricted to the
  JSON fragment the client exercises (objects, arrays, strings, integers,
  booleans, null);
* `inject_resource_into_message` — the message composer (lines 127-136),
  with the global `loaded_resources` dict passed explicitly;
* `agentLoop` / `submitTurn` — the LangGraph workflow built by
  `create_graph` (lines 141-179): `chat_node` invokes the model on the
  accumulated messages, `tools_condition` routes to `tool_node` exactly
  when the returned assistant message carries tool calls, `tool_node`
  appends one tool-result message per requested call in request order, and
  the `MemorySaver` checkpointer persists the message list across turns;
* `driverStep` — one iteration of the read-eval loop in `main`
  (lines 213-378), with the backend calls (resource fetch, prompt
  resolution, the second input line) supplied as oracles and the observable
  behaviour (prints, agent invocations) recorded as a list of events.
-/

/-! ## Python string primitives -/

/-- Whitespace characters stripped by Python's `str.strip()` (ASCII part). -/
def isPySpace (c : Char) : Bool :=
  c == ' ' || c == '\t' || c == '\n' || c == '\r' ||
  c == Char.ofNat 11 || c == Char.ofNat 12

/-- Drop trailing characters satisfying `p`. -/
def dropEndWhile (p : Char → Bool) (l : List Char) : List Char :=
  (l.reverse.dropWhile p).reverse

/-- Strip characters satisfying `p` from both ends, as Python `str.strip`. -/
def trimBothChars (p : Char → Bool) (l : List Char) : List Char :=
  dropEndWhile p (l.dropWhile p)

/-- Python `s.strip()` on a character list. -/
def pyStripChars (l : List Char) : List Char :=
  trimBothChars isPySpace l

/-- Python `s.strip('"')`: remove leading and trailing double quotes. -/
def stripQuoteChars (l : List Char) : List Char :=
  trimBothChars (fun c => c == '\"') l

/-- Python `s.strip()` on strings. -/
def pyStrip (s : String) : String :=
  String.mk (pyStripChars s.data)

/-- Is the first list a leading segment of the second? -/
def listLeads : List Char → List Char → Bool
  | [], _ => true
  | _ :: _, [] => false
  | a :: as, b :: bs => a == b && listLeads as bs

/-- Python `s.startswith(p)`. -/
def pyStartsWith (s p : String) : Bool :=
  listLeads p.data s.data

/-- Python `s.lower()` (ASCII). -/
def pyToLower (s : String) : String :=
  String.mk (s.data.map Char.toLower)

/-- Split a character list at the first occurrence of `c`:
`some (before, after)` when `c` occurs, `none` otherwise.  This is the
common core of Python's `s.split(c, 1)` and `s.find(c)` as used by the
client. -/
def splitAfterChar (c : Char) : List Char → Option (List Char × List Char)
  | [] => Option.none
  | x :: xs =>
    if x == c then Option.some ([], xs)
    else
      match splitAfterChar c xs with
      | Option.some p => Option.some (x :: p.1, p.2)
      | Option.none => Option.none

/-- Python `s.split(c)` (full split) on a character list. -/
def splitAllOn (c : Char) : List Char → List (List Char)
  | [] => [[]]
  | x :: xs =>
    if x == c then [] :: splitAllOn c xs
    else
      match splitAllOn c xs with
      | h :: t => (x :: h) :: t
      | [] => [[x]]

/-- Everything after the first `':'` of `message`, i.e. Python
`message.split(":", 1)[1]`.  Total: returns `[]` when no colon exists
(the client only evaluates this under a prefix check that guarantees a
colon). -/
def afterFirstColon (message : String) : List Char :=
  match splitAfterChar ':' message.data with
  | Option.some p => p.2
  | Option.none => []

/-! ## Python dicts as association lists -/

/-- `k in d` for a Python dict modelled as an association list. -/
def dictContainsKey {α : Type} (d : List (String × α)) (k : String) : Bool :=
  d.any (fun p => p.1 == k)

/-- `d[k]` lookup. -/
def dictGet {α : Type} (d : List (String × α)) (k : String) : Option α :=
  (d.find? (fun p => p.1 == k)).map (fun p => p.2)

/-- `d[k] = v`: update in place when the key exists (Python dicts keep the
original position of an updated key), append otherwise. -/
def dictPut {α : Type} (d : List (String × α)) (k : String) (v : α) :
    List (String × α) :=
  if dictContainsKey d k then
    d.map (fun p => if p.1 == k then (k, v) else p)
  else d ++ [(k, v)]

/-- `del d[k]`. -/
def dictErase {α : Type} (d : List (String × α)) (k : String) :
    List (String × α) :=
  d.filter (fun p => p.1 != k)

/-- The resource cache `loaded_resources` (client.py line 58): URI to
last-loaded content. -/
abbrev ResourceCache := List (String × String)

/-! ## Command classifier (`extract_meta_command`, client.py lines 63-80) -/

/-- The four classifications produced by `extract_meta_command`; `chat`
models the Python return value `(None, None)`. -/
inductive MetaCommand where
  | resource (uri : String)
  | prompt (name : String)
  | use_resource (uri : String) (query : String)
  | chat
  deriving DecidableEq

/-- `extract_meta_command` (client.py lines 63-80), translated clause by
clause: each directive branch takes `message.split(":", 1)[1]`; the
resource and prompt branches apply `.strip().strip('"')`; the
use_resource branch strips the remainder, looks for the first `' '`
(Python `parts.find(" ")`), and strips both sides of the split. -/
def extract_meta_command (message : String) : MetaCommand :=
  if pyStartsWith message "@resource:" then
    MetaCommand.resource (String.mk (stripQuoteChars (pyStripChars (afterFirstColon message))))
  else if pyStartsWith message "@prompt:" then
    MetaCommand.prompt (String.mk (stripQuoteChars (pyStripChars (afterFirstColon message))))
  else if pyStartsWith message "@use_resource:" then
    let parts := pyStripChars (afterFirstColon message)
    match splitAfterChar ' ' parts with
    | Option.some p =>
        MetaCommand.use_resource (String.mk (pyStripChars p.1)) (String.mk (pyStripChars p.2))
    | Option.none => MetaCommand.use_resource (String.mk (pyStripChars parts)) ""
  else MetaCommand.chat

/-! ## Python values and a model of `json.loads`

`parse_arguments` calls `json.loads` and returns its result unchanged, so
the embedding needs the dynamically-typed result.  `PyValue` covers the
Python values reachable from JSON decoding plus the dict of strings built
by the fallback strategies.  `jsonLoads` is a concrete executable model of
`json.loads` on the fragment the client exercises: objects, arrays,
strings with the basic escapes, integer numbers (no float support),
`true`/`false`/`null`, with JSON whitespace and the trailing-garbage and
leading-zero rules of the Python decoder. -/

inductive PyValue where
  | pyNone
  | pyBool (b : Bool)
  | pyInt (n : Int)
  | pyStr (s : String)
  | pyList (xs : List PyValue)
  | pyDict (entries : List (String × PyValue))

/-- Python truthiness (`if not args:`) for the values above. -/
def PyValue.isTruthy : PyValue → Bool
  | PyValue.pyNone => false
  | PyValue.pyBool b => b
  | PyValue.pyInt n => n != 0
  | PyValue.pyStr s => !(s == "")
  | PyValue.pyList xs => !xs.isEmpty
  | PyValue.pyDict es => !es.isEmpty

/-- `isinstance(v, dict)`. -/
def PyValue.isDict : PyValue → Bool
  | PyValue.pyDict _ => true
  | _ => false

/-- The opening brace character (written via its code point). -/
def lbrace : Char := Char.ofNat 123

/-- The closing brace character (written via its code point). -/
def rbrace : Char := Char.ofNat 125

/-- JSON whitespace accepted between tokens by `json.loads`. -/
def isJsonWs (c : Char) : Bool :=
  c == ' ' || c == '\t' || c == '\n' || c == '\r'

/-- Skip JSON whitespace. -/
def skipJsonWs : List Char → List Char
  | [] => []
  | c :: rest => if isJsonWs c then skipJsonWs rest else c :: rest

/-- One-character JSON string escapes (`\uXXXX` is not modelled; no client
input uses it). -/
def jsonEscChar (e : Char) : Option Char :=
  if e == '\"' then Option.some '\"'
  else if e == '\\' then Option.some '\\'
  else if e == '/' then Option.some '/'
  else if e == 'n' then Option.some '\n'
  else if e == 't' then Option.some '\t'
  else if e == 'r' then Option.some '\r'
  else if e == 'b' then Option.some (Char.ofNat 8)
  else if e == 'f' then Option.some (Char.ofNat 12)
  else Option.none

/-- Parse the body of a JSON string (the opening quote already consumed),
returning the string and the remaining input. -/
def jsonStringAux (acc : List Char) : List Char → Option (String × List Char)
  | [] => Option.none
  | c :: rest =>
    if c == '\"' then Option.some (String.mk acc.reverse, rest)
    else if c == '\\' then
      match rest with
      | [] => Option.none
      | e :: rest2 =>
        match jsonEscChar e with
        | Option.some ec => jsonStringAux (ec :: acc) rest2
        | Option.none => Option.none
    else jsonStringAux (c :: acc) rest

/-- Decimal digits to a natural number. -/
def digitsToNat (ds : List Char) : Nat :=
  ds.foldl (fun acc c => acc * 10 + (c.toNat - 48)) 0

/-- Parse a JSON unsigned integer with the decoder's no-leading-zero rule.
Fractions and exponents are not modelled (floats are outside the fragment
used here), so a digit run followed by `.`/`e`/`E` is rejected. -/
def jsonNat (cs : List Char) : Option (Nat × List Char) :=
  let ds := cs.takeWhile Char.isDigit
  let rest := cs.dropWhile Char.isDigit
  let floatish :=
    match rest with
    | [] => false
    | c :: _ => c == '.' || c == 'e' || c == 'E'
  if floatish then Option.none
  else
    match ds with
    | [] => Option.none
    | [d] => Option.some (d.toNat - 48, rest)
    | d :: _ :: _ =>
      if d == '0' then Option.none else Option.some (digitsToNat ds, rest)

/-- Expect the literal characters `lit`, yielding `v`. -/
def jsonLit (lit : List Char) (cs : List Char) (v : PyValue) :
    Option (PyValue × List Char) :=
  if lit.isPrefixOf cs then Option.some (v, cs.drop lit.length) else Option.none

mutual

/-- Parse one JSON value (fuelled; every recursive call strictly decreases
the fuel, and `jsonLoads` supplies enough fuel for its input). -/
def jsonValueAux : Nat → List Char → Option (PyValue × List Char)
  | 0, _ => Option.none
  | f + 1, cs =>
    match skipJsonWs cs with
    | [] => Option.none
    | c :: rest =>
      if c == '\"' then
        match jsonStringAux [] rest with
        | Option.some p => Option.some (PyValue.pyStr p.1, p.2)
        | Option.none => Option.none
      else if c == lbrace then jsonObjAux f rest [] true
      else if c == '[' then jsonArrAux f rest [] true
      else if c == 't' then jsonLit ['r', 'u', 'e'] rest (PyValue.pyBool true)
      else if c == 'f' then jsonLit ['a', 'l', 's', 'e'] rest (PyValue.pyBool false)
      else if c == 'n' then jsonLit ['u', 'l', 'l'] rest PyValue.pyNone
      else if c == '-' then
        match jsonNat rest with
        | Option.some p => Option.some (PyValue.pyInt (-(p.1 : Int)), p.2)
        | Option.none => Option.none
      else if c.isDigit then
        match jsonNat (c :: rest) with
        | Option.some p => Option.some (PyValue.pyInt (p.1 : Int), p.2)
        | Option.none => Option.none
      else Option.none

/-- Parse the members of a JSON object after its opening brace.  Duplicate
keys follow the decoder: the last value wins, at the key's first
position (`dictPut`). -/
def jsonObjAux : Nat → List Char → List (String × PyValue) → Bool →
    Option (PyValue × List Char)
  | 0, _, _, _ => Option.none
  | f + 1, cs, acc, atStart =>
    match skipJsonWs cs with
    | [] => Option.none
    | c :: rest =>
      if c == rbrace && atStart then Option.some (PyValue.pyDict acc, rest)
      else if c == '\"' then
        match jsonStringAux [] rest with
        | Option.none => Option.none
        | Option.some kp =>
          match skipJsonWs kp.2 with
          | [] => Option.none
          | c2 :: r2 =>
            if c2 == ':' then
              match jsonValueAux f r2 with
              | Option.none => Option.none
              | Option.some vp =>
                match skipJsonWs vp.2 with
                | [] => Option.none
                | c3 :: r3 =>
                  if c3 == ',' then jsonObjAux f r3 (dictPut acc kp.1 vp.1) false
                  else if c3 == rbrace then
                    Option.some (PyValue.pyDict (dictPut acc kp.1 vp.1), r3)
                  else Option.none
            else Option.none
      else Option.none

/-- Parse the elements of a JSON array after its opening bracket. -/
def jsonArrAux : Nat → List Char → List PyValue → Bool →
    Option (PyValue × List Char)
  | 0, _, _, _ => Option.none
  | f + 1, cs, acc, atStart =>
    match skipJsonWs cs with
    | [] => Option.none
    | c :: rest =>
      if c == ']' && atStart then Option.some (PyValue.pyList acc, rest)
      else
        match jsonValueAux f cs with
        | Option.none => Option.none
        | Option.some vp =>
          match skipJsonWs vp.2 with
          | [] => Option.none
          | c2 :: r2 =>
            if c2 == ',' then jsonArrAux f r2 (acc ++ [vp.1]) false
            else if c2 == ']' then Option.some (PyValue.pyList (acc ++ [vp.1]), r2)
            else Option.none

end

/-- Model of Python `json.loads` on the fragment described above:
parse one value, then require only whitespace to remain. -/
def jsonLoads (s : String) : Option PyValue :=
  match jsonValueAux (2 * s.length + 4) s.data with
  | Option.some p => if skipJsonWs p.2 == [] then Option.some p.1 else Option.none
  | Option.none => Option.none

/-! ## Argument parser (`parse_arguments`, client.py lines 85-122) -/

/-- Strategy 2 of `parse_arguments`: split the input on `','`; for each
segment containing `':'`, split on the first `':'`, strip both sides and
assign into the dict; segments without a colon are dropped. -/
def commaPairs (raw : List Char) : List (String × PyValue) :=
  (splitAllOn ',' raw).foldl
    (fun acc pair =>
      if pair.contains ':' then
        match splitAfterChar ':' pair with
        | Option.some p =>
            dictPut acc (String.mk (pyStripChars p.1))
              (PyValue.pyStr (String.mk (pyStripChars p.2)))
        | Option.none => acc
      else acc)
    []

/-- `parse_arguments` (client.py lines 85-122).  The input is stripped;
`json.loads` is tried first and its result returned unchanged on success
(`except json.JSONDecodeError: pass` otherwise); the comma/colon strategy
then always reaches its `return args` (its `try` body is total and the
colon guard protects the unpacking), so the single-pair fallback and the
final `return {}` of the source are unreachable. -/
def parse_arguments (raw0 : String) : PyValue :=
  let raw := pyStripChars raw0.data
  match jsonLoads (String.mk raw) with
  | Option.some v => v
  | Option.none => PyValue.pyDict (commaPairs raw)

/-! ## Message composer (`inject_resource_into_message`, lines 127-136) -/

/-- Python `repr` of the key list, as interpolated by the error branch
(`{list(loaded_resources.keys())}`). -/
def reprKeyList (cache : ResourceCache) : String :=
  "[" ++ String.intercalate ", " (cache.map (fun p => "'" ++ p.1 ++ "'")) ++ "]"

/-- `inject_resource_into_message` (client.py lines 127-136), with the
global `loaded_resources` passed explicitly as `cache`. -/
def inject_resource_into_message (cache : ResourceCache)
    (user_query resource_uri : String) : String :=
  if dictContainsKey cache resource_uri then
    "[USING RESOURCE: " ++ resource_uri ++ "]\n" ++
      (dictGet cache resource_uri).getD "" ++ "\n\nUser query: " ++ user_query
  else
    "[ERROR: Resource '" ++ resource_uri ++ "' not found. Available resources: " ++
      reprKeyList cache ++ "]\n\nUser query: " ++ user_query

/-! ## Agent loop (`create_graph`, client.py lines 141-179)

The compiled graph is `START → chat_node`, a conditional edge
`chat_node → tool_node` when `tools_condition` finds tool calls on the
returned assistant message (`__end__` otherwise), and `tool_node →
chat_node`.  The state is the `add_messages`-annotated message list, so
every node appends; `MemorySaver` with a fixed `thread_id` carries the
list across `ainvoke` calls.  The embedding makes the model a function
from the accumulated conversation to one assistant message, the tools a
function from a request to its result text, and bounds the rounds by
explicit fuel (the source has no iteration cap; `Option.none` stands for
a turn that exhausts the bound). -/

/-- A tool call inside an assistant message: tool name and argument
payload. -/
structure ToolRequest where
  name : String
  args : String
  deriving DecidableEq

/-- An assistant message: final text content plus the list of tool calls
(`tools_condition` routes on this list being nonempty). -/
structure AIMessage where
  content : String
  tool_calls : List ToolRequest
  deriving DecidableEq

/-- One entry of the graph state's message list. -/
inductive Message where
  | user (content : String)
  | assistant (msg : AIMessage)
  | toolResult (tool : String) (output : String)
  deriving DecidableEq

/-- `ToolNode`: one tool-result message per requested call, in the order
the assistant message listed the requests. -/
def toolResults (exec : ToolRequest → String) (reqs : List ToolRequest) :
    List Message :=
  reqs.map (fun r => Message.toolResult r.name (exec r))

/-- The `chat_node` / `tools_condition` / `tool_node` cycle: invoke the
model on the accumulated messages, append its assistant message, stop if
it carries no tool calls, otherwise append the tool results and repeat. -/
def agentLoop (model : List Message → AIMessage) (exec : ToolRequest → String) :
    Nat → List Message → Option (List Message)
  | 0, _ => Option.none
  | fuel + 1, conv =>
    let response := model conv
    let conv2 := conv ++ [Message.assistant response]
    if response.tool_calls.isEmpty then Option.some conv2
    else agentLoop model exec fuel (conv2 ++ toolResults exec response.tool_calls)

/-- One `agent.ainvoke({"messages": text})` call: the checkpointer holds
`conv`, the input text is appended as a user message, then the graph runs
to `END`. -/
def submitTurn (model : List Message → AIMessage) (exec : ToolRequest → String)
    (fuel : Nat) (conv : List Message) (text : String) : Option (List Message) :=
  agentLoop model exec fuel (conv ++ [Message.user text])

/-- Number of assistant messages in a conversation (used to drive scripted
model stubs). -/
def assistCount (conv : List Message) : Nat :=
  conv.countP (fun m =>
    match m with
    | Message.assistant _ => true
    | _ => false)

/-- Model stub scripted by rounds: on its `i`-th invocation (counted by the
assistant messages already in the conversation) it requests the `i`-th
round of tool calls, and answers `ans` once the script is exhausted. -/
def scriptedStub (script : List (List ToolRequest)) (ans : String)
    (conv : List Message) : AIMessage :=
  match script[assistCount conv]? with
  | Option.some reqs => { content := "", tool_calls := reqs }
  | Option.none => { content := ans, tool_calls := [] }

/-- Is a message a tool result? -/
def isToolResultMsg : Message → Bool
  | Message.toolResult _ _ => true
  | _ => false

/-- Model stub that requests the single tool call `r` on a fresh user
message and answers `ans` after seeing a tool result. -/
def oneToolStub (r : ToolRequest) (ans : String) (conv : List Message) :
    AIMessage :=
  match conv.getLast? with
  | Option.some m =>
    if isToolResultMsg m then { content := ans, tool_calls := [] }
    else { content := "", tool_calls := [r] }
  | Option.none => { content := "", tool_calls := [r] }

/-! ## Interactive session driver (`main`, client.py lines 213-378)

One iteration of the `while True` loop.  The backend interactions of the
iteration — the resource fetch, the two prompt resolutions and the second
input line — are supplied as oracles; the observable behaviour is the
updated cache plus the ordered list of events (console reports and agent
invocations). -/

/-- How a prompt resolution can fail at the backend.  `load_mcp_prompt`
raises an exception in every case and the client's `except` clause never
inspects it, so the handler below ignores this label; it exists so that
statements can quantify over the failure's cause. -/
inductive PromptFailure where
  | needsArguments
  | unknownPrompt
  | backendError
  deriving DecidableEq

/-- The per-turn backend oracles: the result of
`load_mcp_resources(first_session, uris=[uri])` (`Except.error` models a
raised exception, the list models the returned blobs), the result of
`load_mcp_prompt` without arguments, the second input line read in the
argument-retry path, and the result of `load_mcp_prompt` with the parsed
arguments. -/
structure TurnOracles where
  fetchResource : Except String (List String)
  resolvePrompt : Except PromptFailure (List String)
  argLine : String
  retryResolve : Except PromptFailure (List String)

/-- Observable events of one driver iteration, in program order. -/
inductive Event where
  | agentInvoke (text : String)
  | rejectedEmptyQuery
  | rejectedResourceNotLoaded
  | printedUpdatingResource
  | printedLoadedResource
  | printedNoResourceFound
  | printedFetchFailure
  | printedPromptError
  | shownArgHelp
  | printedParseFailure
  | retriedResolution
  | printedPromptLoaded
  | printedNoPromptMessages
  | printedRetryFailure
  | exitSession
  deriving DecidableEq

/-- Does an event list invoke the agent? -/
def hasAgentInvoke (evs : List Event) : Bool :=
  evs.any (fun e =>
    match e with
    | Event.agentInvoke _ => true
    | _ => false)

/-- `len(prompt) == 1` takes the sole content, otherwise the contents are
joined with newlines (client.py lines 258-263 and 316-320). -/
def joinPrompt (msgs : List String) : String :=
  match msgs with
  | [m] => m
  | _ => String.intercalate "\n" msgs

/-- The `use_resource` branch (client.py lines 221-249): an empty query is
rejected with the usage hint, an unloaded URI with the load-it-first hint;
otherwise the composed message is fed to the agent. -/
def useResourceTurn (cache : ResourceCache) (uri query : String) :
    ResourceCache × List Event :=
  if query == "" then (cache, [Event.rejectedEmptyQuery])
  else if !dictContainsKey cache uri then (cache, [Event.rejectedResourceNotLoaded])
  else (cache, [Event.agentInvoke (inject_resource_into_message cache query uri)])

/-- The `except` clause of the prompt branch (client.py lines 289-346):
report the failure, show the argument-format help, read and parse one more
line; abort on a falsy parse result, otherwise retry the resolution once
with the parsed arguments. -/
def promptFailurePath (cache : ResourceCache) (o : TurnOracles) :
    ResourceCache × List Event :=
  let evs0 := [Event.printedPromptError, Event.shownArgHelp]
  let args := parse_arguments o.argLine
  if !args.isTruthy then (cache, evs0 ++ [Event.printedParseFailure])
  else
    match o.retryResolve with
    | Except.ok msgs =>
      if !msgs.isEmpty then
        (cache, evs0 ++ [Event.retriedResolution, Event.printedPromptLoaded,
          Event.agentInvoke (joinPrompt msgs)])
      else (cache, evs0 ++ [Event.retriedResolution, Event.printedNoPromptMessages])
    | Except.error _ =>
      (cache, evs0 ++ [Event.retriedResolution, Event.printedRetryFailure])

/-- The `prompt` branch (client.py lines 250-347): try the resolution
without arguments; on success feed the rendered text to the agent; any
raised exception enters the argument-retry path. -/
def promptTurn (cache : ResourceCache) (o : TurnOracles) :
    ResourceCache × List Event :=
  match o.resolvePrompt with
  | Except.ok msgs =>
    if !msgs.isEmpty then
      (cache, [Event.printedPromptLoaded, Event.agentInvoke (joinPrompt msgs)])
    else (cache, [Event.printedNoPromptMessages])
  | Except.error _ => promptFailurePath cache o

/-- The `resource` branch (client.py lines 349-368): inside the `try`, a
cached copy is deleted first; only then is the backend fetched.  A raised
fetch is caught and reported after the deletion has already happened. -/
def resourceTurn (cache : ResourceCache) (uri : String) (o : TurnOracles) :
    ResourceCache × List Event :=
  let cache1 := if dictContainsKey cache uri then dictErase cache uri else cache
  let evs1 := if dictContainsKey cache uri then [Event.printedUpdatingResource] else []
  match o.fetchResource with
  | Except.error _ => (cache1, evs1 ++ [Event.printedFetchFailure])
  | Except.ok blob =>
    match blob with
    | content :: _ =>
      (dictPut cache1 uri content, evs1 ++ [Event.printedLoadedResource])
    | [] => (cache1, evs1 ++ [Event.printedNoResourceFound])

/-- One iteration of the `while True` loop in `main` (client.py lines
213-378): the case-insensitive exit check, then dispatch on
`extract_meta_command`; an unmatched line goes to the agent verbatim. -/
def driverStep (cache : ResourceCache) (message : String) (o : TurnOracles) :
    ResourceCache × List Event :=
  if pyToLower message == "exit" || pyToLower message == "quit" then
    (cache, [Event.exitSession])
  else
    match extract_meta_command message with
    | MetaCommand.use_resource uri query => useResourceTurn cache uri query
    | MetaCommand.prompt _ => promptTurn cache o
    | MetaCommand.resource uri => resourceTurn cache uri o
    | MetaCommand.chat => (cache, [Event.agentInvoke message])

/-- Replay one event against the conversation: only agent invocations touch
it (each runs one full agent turn). -/
def applyEvent (model : List Message → AIMessage) (exec : ToolRequest → String)
    (fuel : Nat) (acc : Option (List Message)) (e : Event) :
    Option (List Message) :=
  match acc with
  | Option.none => Option.none
  | Option.some conv =>
    match e with
    | Event.agentInvoke t => submitTurn model exec fuel conv t
    | _ => Option.some conv

/-- The conversation after a driver iteration, obtained by replaying its
events. -/
def conversationAfter (model : List Message → AIMessage)
    (exec : ToolRequest → String) (fuel : Nat) (conv : List Message)
    (evs : List Event) : Option (List Message) :=
  evs.foldl (applyEvent model exec fuel) (Option.some conv)

/-! ## Specification-side definitions

These definitions transcribe sentences of the specification (not the
source); they exist to be compared against the source-derived functions
above. -/

/-- Transcribes the claimed resource payload: the remainder `s` "with
surrounding quotes removed and surrounding whitespace removed", applying
the two removals in the order the claim lists them. -/
def claimResourcePayload (s : String) : String :=
  String.mk (pyStripChars (stripQuoteChars s.data))

/-- First character satisfying `p` splits the list:
`some (before, after)`. -/
def splitAtFirstSuchThat (p : Char → Bool) : List Char → Option (List Char × List Char)
  | [] => Option.none
  | x :: xs =>
    if p x then Option.some ([], xs)
    else
      match splitAtFirstSuchThat p xs with
      | Option.some q => Option.some (x :: q.1, q.2)
      | Option.none => Option.none

/-- Transcribes the claimed `use_resource` split: the trimmed remainder is
"split at the first whitespace boundary into a URI token and a trailing
query", both sides trimmed; "when no whitespace exists the query is the
empty string". -/
def claimUseResourceSplit (rest : String) : String × String :=
  let parts := pyStripChars rest.data
  match splitAtFirstSuchThat isPySpace parts with
  | Option.some p => (String.mk (pyStripChars p.1), String.mk (pyStripChars p.2))
  | Option.none => (String.mk (pyStripChars parts), "")

/-- The amended `use_resource` split: the trimmed remainder is split at the
first space character (not at arbitrary whitespace), URI token and query
each trimmed; with no space the whole trimmed remainder is the URI and the
query is empty. -/
def spaceSplit (rest : String) : String × String :=
  let parts := pyStripChars rest.data
  match splitAfterChar ' ' parts with
  | Option.some p => (String.mk (pyStripChars p.1), String.mk (pyStripChars p.2))
  | Option.none => (String.mk (pyStripChars parts), "")

/-- The marker-plus-content-plus-query block of the composer's success
branch, as the specification describes it: a marker line naming the
resource, the verbatim cached content, a blank line, then the literal
query. -/
def usingResourceBlock (cache : ResourceCache) (uri query : String) : String :=
  "[USING RESOURCE: " ++ uri ++ "]\n" ++ (dictGet cache uri).getD "" ++
    "\n\nUser query: " ++ query

/-- Number of resolution retries recorded in an event list. -/
def countRetried : List Event → Nat
  | [] => 0
  | Event.retriedResolution :: t => countRetried t + 1
  | _ :: t => countRetried t

/-! # Theorems -/

theorem dictErase_of_not_contains {α : Type} (d : List (String × α)) (k : String)
    (h : dictContainsKey d k = false) : dictErase d k = d := by
  induction d with
  | nil => rfl
  | cons p t ih =>
    simp only [dictContainsKey, List.any_cons, Bool.or_eq_false_iff] at h
    simp only [dictErase, List.filter_cons, bne, h.1, Bool.not_false, if_true]
    have ht := ih (by simpa [dictContainsKey] using h.2)
    simpa [dictErase] using ht

/-- Claim C6: a line matching none of the three exact prefixes classifies as
chat, and (when it is not the exit directive) the driver submits the line
itself to the agent. -/
theorem chat_fallthrough (cache : ResourceCache) (m : String) (o : TurnOracles)
    (h1 : pyStartsWith m "@resource:" = false)
    (h2 : pyStartsWith m "@prompt:" = false)
    (h3 : pyStartsWith m "@use_resource:" = false)
    (h4 : pyToLower m ≠ "exit") (h5 : pyToLower m ≠ "quit") :
    extract_meta_command m = MetaCommand.chat ∧
    driverStep cache m o = (cache, [Event.agentInvoke m]) := by
  have hc : extract_meta_command m = MetaCommand.chat := by
    simp [extract_meta_command, h1, h2, h3]
  refine ⟨hc, ?_⟩
  simp [driverStep, hc, beq_iff_eq, h4, h5]

/-- Witness for `chat_fallthrough` at a concrete non-directive line. -/
theorem chat_fallthrough_witness :
    extract_meta_command "hello there" = MetaCommand.chat ∧
    driverStep [] "hello there"
        { fetchResource := Except.ok [], resolvePrompt := Except.ok [],
          argLine := "", retryResolve := Except.ok [] } =
      ([], [Event.agentInvoke "hello there"]) :=
  chat_fallthrough [] "hello there"
    { fetchResource := Except.ok [], resolvePrompt := Except.ok [],
      argLine := "", retryResolve := Except.ok [] }
    (by decide) (by decide) (by decide) (by decide) (by decide)

/-- Claim C9 counterexample: for the remainder `" foo "` (quotes around
spaced text) the code's payload keeps its surrounding whitespace, while the
claimed payload — surrounding quotes removed, then surrounding whitespace
removed — does not. -/
theorem resource_payload_order_cex :
    extract_meta_command "@resource:\" foo \"" = MetaCommand.resource " foo " ∧
    claimResourcePayload "\" foo \"" = "foo" ∧
    (" foo " : String) ≠ "foo" :=
  ⟨by decide, by decide, by decide⟩

/-- Claim C9 (amended): the payload of a `@resource:` line is the remainder
first trimmed of surrounding whitespace and then stripped of surrounding
double-quote characters, so whitespace protected by outer quotes is kept. -/
theorem resource_payload_trim_then_unquote (s : String) :
    extract_meta_command ("@resource:" ++ s) =
      MetaCommand.resource (String.mk (stripQuoteChars (pyStripChars s.data))) :=
  rfl

/-- Claim C7 counterexample: with a tab inside the remainder, the code does
not split at the first whitespace boundary (it only looks for a space), so
the classified pair differs from the claimed whitespace split. -/
theorem use_resource_whitespace_cex :
    extract_meta_command "@use_resource:foo\tbar baz" =
      MetaCommand.use_resource "foo\tbar" "baz" ∧
    claimUseResourceSplit "foo\tbar baz" = ("foo", "bar baz") ∧
    (("foo\tbar", "baz") : String × String) ≠ ("foo", "bar baz") :=
  ⟨by decide, by decide, by decide⟩

/-- Claim C7 (amended): a `use_resource` line splits the trimmed remainder
at the first space character (both sides trimmed; empty query when no
space exists); the two example classifications hold as stated. -/
theorem use_resource_space_split (rest : String) :
    extract_meta_command ("@use_resource:" ++ rest) =
      MetaCommand.use_resource (spaceSplit rest).1 (spaceSplit rest).2 ∧
    extract_meta_command "@use_resource:foo bar baz" =
      MetaCommand.use_resource "foo" "bar baz" ∧
    extract_meta_command "@use_resource:foo" = MetaCommand.use_resource "foo" "" := by
  refine ⟨?_, by decide, by decide⟩
  show (match splitAfterChar ' ' (pyStripChars rest.data) with
    | Option.some p =>
        MetaCommand.use_resource (String.mk (pyStripChars p.1)) (String.mk (pyStripChars p.2))
    | Option.none =>
        MetaCommand.use_resource (String.mk (pyStripChars (pyStripChars rest.data))) "") =
    MetaCommand.use_resource (spaceSplit rest).1 (spaceSplit rest).2
  cases h : splitAfterChar ' ' (pyStripChars rest.data) with
  | some p => simp [spaceSplit, h]
  | none => simp [spaceSplit, h]

/-- Claim C4 counterexample: the structured-decoding step returns whatever
`json.loads` produced, with no mapping check — the valid JSON input
`"[1, 2]"` makes the parser return a list, not a string-keyed mapping. -/
theorem parse_arguments_nondict_cex :
    parse_arguments "[1, 2]" = PyValue.pyList [PyValue.pyInt 1, PyValue.pyInt 2] ∧
    PyValue.isDict (parse_arguments "[1, 2]") = false :=
  ⟨rfl, rfl⟩

/-- Claim C4 (amended): the parser is total and its fallback strategy
always produces a string-keyed mapping, but the structured-decoding step
returns its decoded value as-is, mapping or not: whenever the stripped
input is valid JSON the result is exactly the decoded value, and only
when decoding fails is the result guaranteed to be a mapping. -/
theorem parse_arguments_total_structure (raw0 : String) :
    (∀ v, jsonLoads (pyStrip raw0) = Option.some v → parse_arguments raw0 = v) ∧
    (jsonLoads (pyStrip raw0) = Option.none →
      parse_arguments raw0 = PyValue.pyDict (commaPairs (pyStripChars raw0.data)) ∧
      PyValue.isDict (parse_arguments raw0) = true) := by
  constructor
  · intro v hv
    have hv2 : jsonLoads (String.mk (pyStripChars raw0.data)) = Option.some v := hv
    simp [parse_arguments, hv2]
  · intro hn
    have hn2 : jsonLoads (String.mk (pyStripChars raw0.data)) = Option.none := hn
    have h1 : parse_arguments raw0 = PyValue.pyDict (commaPairs (pyStripChars raw0.data)) := by
      simp [parse_arguments, hn2]
    exact ⟨h1, by rw [h1]; rfl⟩

/-- Witness for `parse_arguments_total_structure`: the JSON branch hands
back the non-mapping list decoded from `"[1, 2]"`, and the fallback yields
a mapping for `"nonsense"`. -/
theorem parse_arguments_total_structure_witness :
    parse_arguments "[1, 2]" = PyValue.pyList [PyValue.pyInt 1, PyValue.pyInt 2] ∧
    PyValue.isDict (parse_arguments "nonsense") = true :=
  ⟨(parse_arguments_total_structure "[1, 2]").1
      (PyValue.pyList [PyValue.pyInt 1, PyValue.pyInt 2]) rfl,
    ((parse_arguments_total_structure "nonsense").2 rfl).2⟩

/-- Claim C5 counterexample: the successfully decoded empty object and a
totally unparseable input produce the very same empty mapping, so no
caller can tell them apart. -/
theorem empty_object_indistinguishable_cex :
    parse_arguments "\x7b\x7d" = parse_arguments "nonsense" ∧
    parse_arguments "\x7b\x7d" = PyValue.pyDict [] ∧
    PyValue.isTruthy (parse_arguments "\x7b\x7d") = false :=
  ⟨rfl, rfl, rfl⟩

/-- Claim C5 (amended): the parser returns a bare mapping, so a decoded
empty object is the very value returned for unparseable input, and the
caller aborts the argument retry on any falsy parse result — including a
successfully parsed empty object — whatever the resolution failure was. -/
theorem empty_object_parse_ambiguity (cache : ResourceCache) (m p argLine : String)
    (fetch : Except String (List String)) (retry : Except PromptFailure (List String))
    (k : PromptFailure)
    (hm : extract_meta_command m = MetaCommand.prompt p)
    (h4 : pyToLower m ≠ "exit") (h5 : pyToLower m ≠ "quit")
    (hfalsy : PyValue.isTruthy (parse_arguments argLine) = false) :
    driverStep cache m ⟨fetch, Except.error k, argLine, retry⟩ =
      (cache, [Event.printedPromptError, Event.shownArgHelp, Event.printedParseFailure]) ∧
    parse_arguments "\x7b\x7d" = parse_arguments "nonsense" := by
  refine ⟨?_, rfl⟩
  simp [driverStep, beq_iff_eq, h4, h5, hm, promptTurn, promptFailurePath, hfalsy]

/-- Witness for `empty_object_parse_ambiguity`: the user answers the
argument prompt with a well-formed empty JSON object and the turn is
aborted as a parse failure. -/
theorem empty_object_parse_ambiguity_witness :
    driverStep [] "@prompt:research_prompt"
        ⟨Except.ok [], Except.error PromptFailure.needsArguments, "\x7b\x7d", Except.ok []⟩ =
      ([], [Event.printedPromptError, Event.shownArgHelp, Event.printedParseFailure]) ∧
    parse_arguments "\x7b\x7d" = parse_arguments "nonsense" :=
  empty_object_parse_ambiguity [] "@prompt:research_prompt" "research_prompt" "\x7b\x7d"
    (Except.ok []) (Except.ok []) PromptFailure.needsArguments
    (by decide) (by decide) (by decide) rfl

/-- Claim C2 counterexample: with `"x"` cached and a fetch that raises, the
turn reports the failure but the cache has lost its previous entry — it is
not equal to the cache before the turn. -/
theorem resource_fetch_failure_cache_cex :
    driverStep [("x", "old")] "@resource:x"
        ⟨Except.error "boom", Except.ok [], "", Except.ok []⟩ =
      ([], [Event.printedUpdatingResource, Event.printedFetchFailure]) ∧
    ([] : ResourceCache) ≠ [("x", "old")] :=
  ⟨by decide, by decide⟩

/-- Claim C2 (amended): on a raised fetch the failure is reported and the
cache equals the prior cache with the entry for the URI removed — unchanged
exactly when the URI was not previously cached, while a previously cached
entry is lost because the handler deletes the old copy before fetching. -/
theorem resource_fetch_failure_cache (cache : ResourceCache) (m uri e : String)
    (o : TurnOracles)
    (hm : extract_meta_command m = MetaCommand.resource uri)
    (h4 : pyToLower m ≠ "exit") (h5 : pyToLower m ≠ "quit")
    (hf : o.fetchResource = Except.error e) :
    driverStep cache m o =
      (dictErase cache uri,
        (if dictContainsKey cache uri then [Event.printedUpdatingResource] else []) ++
          [Event.printedFetchFailure]) ∧
    (dictContainsKey cache uri = false → dictErase cache uri = cache) := by
  constructor
  · by_cases hk : dictContainsKey cache uri = true
    · simp [driverStep, beq_iff_eq, h4, h5, hm, resourceTurn, hk, hf]
    · simp only [Bool.not_eq_true] at hk
      simp [driverStep, beq_iff_eq, h4, h5, hm, resourceTurn, hk, hf,
        dictErase_of_not_contains cache uri hk]
  · exact fun hk => dictErase_of_not_contains cache uri hk

/-- Witness for `resource_fetch_failure_cache` at a URI that was not yet
cached: the failure is reported and the cache is untouched. -/
theorem resource_fetch_failure_cache_witness :
    driverStep [("y", "v")] "@resource:z"
        ⟨Except.error "down", Except.ok [], "", Except.ok []⟩ =
      (dictErase [("y", "v")] "z",
        (if dictContainsKey [("y", "v")] "z" then [Event.printedUpdatingResource] else []) ++
          [Event.printedFetchFailure]) ∧
    (dictContainsKey [("y", "v")] "z" = false → dictErase [("y", "v")] "z" = [("y", "v")]) :=
  resource_fetch_failure_cache [("y", "v")] "@resource:z" "z" "down"
    ⟨Except.error "down", Except.ok [], "", Except.ok []⟩
    (by decide) (by decide) (by decide) rfl

/-- Claim C3 counterexample: a prompt-resolution failure whose cause is an
unknown prompt still receives the argument-format help and still triggers
one retry — the turn is not aborted without an argument prompt. -/
theorem prompt_failure_no_distinction_cex :
    driverStep [] "@prompt:foo"
        ⟨Except.ok [], Except.error PromptFailure.unknownPrompt, "a:1", Except.ok ["done"]⟩ =
      ([], [Event.printedPromptError, Event.shownArgHelp, Event.retriedResolution,
            Event.printedPromptLoaded, Event.agentInvoke "done"]) ∧
    countRetried (driverStep [] "@prompt:foo"
        ⟨Except.ok [], Except.error PromptFailure.unknownPrompt, "a:1", Except.ok ["done"]⟩).2 = 1 ∧
    driverStep [] "@prompt:foo"
        ⟨Except.ok [], Except.error PromptFailure.backendError, "a:1", Except.ok ["done"]⟩ =
      driverStep [] "@prompt:foo"
        ⟨Except.ok [], Except.error PromptFailure.needsArguments, "a:1", Except.ok ["done"]⟩ :=
  ⟨by decide, by decide, by decide⟩

/-- Claim C3 (amended): the handler treats every prompt-resolution failure
alike — whatever the cause, it shows the argument help, reads and parses
one more line, retries exactly once when the parse is truthy and aborts
with a parse-failure report otherwise; the outcome does not depend on the
failure's cause. -/
theorem prompt_failure_uniform_handling (cache : ResourceCache) (m p argLine : String)
    (fetch : Except String (List String)) (retry : Except PromptFailure (List String))
    (k k' : PromptFailure)
    (hm : extract_meta_command m = MetaCommand.prompt p)
    (h4 : pyToLower m ≠ "exit") (h5 : pyToLower m ≠ "quit") :
    driverStep cache m ⟨fetch, Except.error k, argLine, retry⟩ =
      driverStep cache m ⟨fetch, Except.error k', argLine, retry⟩ ∧
    (driverStep cache m ⟨fetch, Except.error k, argLine, retry⟩).2.take 2 =
      [Event.printedPromptError, Event.shownArgHelp] ∧
    countRetried (driverStep cache m ⟨fetch, Except.error k, argLine, retry⟩).2 =
      (if PyValue.isTruthy (parse_arguments argLine) then 1 else 0) ∧
    (PyValue.isTruthy (parse_arguments argLine) = false →
      (driverStep cache m ⟨fetch, Except.error k, argLine, retry⟩).2 =
        [Event.printedPromptError, Event.shownArgHelp, Event.printedParseFailure]) := by
  have hstep : ∀ q : PromptFailure,
      driverStep cache m ⟨fetch, Except.error q, argLine, retry⟩ =
        promptFailurePath cache ⟨fetch, Except.error q, argLine, retry⟩ := by
    intro q
    simp [driverStep, beq_iff_eq, h4, h5, hm, promptTurn]
  have hpath : ∀ q : PromptFailure,
      promptFailurePath cache ⟨fetch, Except.error q, argLine, retry⟩ =
        promptFailurePath cache ⟨fetch, Except.error k, argLine, retry⟩ := by
    intro q
    simp [promptFailurePath]
  refine ⟨by rw [hstep k, hstep k', hpath k'], ?_, ?_, ?_⟩
  all_goals rw [hstep k]
  · by_cases ht : PyValue.isTruthy (parse_arguments argLine) = true
    · cases retry with
      | ok msgs =>
        cases msgs with
        | nil => simp [promptFailurePath, ht]
        | cons a t => simp [promptFailurePath, ht]
      | error f => simp [promptFailurePath, ht]
    · simp only [Bool.not_eq_true] at ht
      simp [promptFailurePath, ht]
  · by_cases ht : PyValue.isTruthy (parse_arguments argLine) = true
    · cases retry with
      | ok msgs =>
        cases msgs with
        | nil => simp [promptFailurePath, ht, countRetried]
        | cons a t => simp [promptFailurePath, ht, countRetried]
      | error f => simp [promptFailurePath, ht, countRetried]
    · simp only [Bool.not_eq_true] at ht
      simp [promptFailurePath, ht, countRetried]
  · intro ht
    simp [promptFailurePath, ht]

/-- Witness for `prompt_failure_uniform_handling`: an unknown-prompt
failure and a backend-error failure are handled identically, with one
retry after a parseable argument line. -/
theorem prompt_failure_uniform_handling_witness :
    driverStep [] "@prompt:bar"
        ⟨Except.ok [], Except.error PromptFailure.unknownPrompt, "k:v", Except.ok ["r"]⟩ =
      driverStep [] "@prompt:bar"
        ⟨Except.ok [], Except.error PromptFailure.backendError, "k:v", Except.ok ["r"]⟩ ∧
    (driverStep [] "@prompt:bar"
        ⟨Except.ok [], Except.error PromptFailure.unknownPrompt, "k:v", Except.ok ["r"]⟩).2.take 2 =
      [Event.printedPromptError, Event.shownArgHelp] ∧
    countRetried (driverStep [] "@prompt:bar"
        ⟨Except.ok [], Except.error PromptFailure.unknownPrompt, "k:v", Except.ok ["r"]⟩).2 =
      (if PyValue.isTruthy (parse_arguments "k:v") then 1 else 0) ∧
    (PyValue.isTruthy (parse_arguments "k:v") = false →
      (driverStep [] "@prompt:bar"
          ⟨Except.ok [], Except.error PromptFailure.unknownPrompt, "k:v", Except.ok ["r"]⟩).2 =
        [Event.printedPromptError, Event.shownArgHelp, Event.printedParseFailure]) :=
  prompt_failure_uniform_handling [] "@prompt:bar" "bar" "k:v" (Except.ok []) (Except.ok ["r"])
    PromptFailure.unknownPrompt PromptFailure.backendError
    (by decide) (by decide) (by decide)

/-- Claim C8: a `use_resource` turn with an empty query is rejected with
the usage hint, and one with an uncached URI is rejected with the
load-it-first hint; in both cases the cache is untouched, the agent is
never invoked, and the conversation is unchanged. -/
theorem use_resource_guards (cache : ResourceCache) (m uri query : String)
    (o : TurnOracles) (model : List Message → AIMessage)
    (exec : ToolRequest → String) (fuel : Nat) (conv : List Message)
    (hm : extract_meta_command m = MetaCommand.use_resource uri query)
    (h4 : pyToLower m ≠ "exit") (h5 : pyToLower m ≠ "quit")
    (hfail : query = "" ∨ dictContainsKey cache uri = false) :
    (driverStep cache m o).1 = cache ∧
    hasAgentInvoke (driverStep cache m o).2 = false ∧
    conversationAfter model exec fuel conv (driverStep cache m o).2 = Option.some conv ∧
    (query = "" → (driverStep cache m o).2 = [Event.rejectedEmptyQuery]) ∧
    (query ≠ "" → (driverStep cache m o).2 = [Event.rejectedResourceNotLoaded]) := by
  have hd : driverStep cache m o = useResourceTurn cache uri query := by
    simp [driverStep, beq_iff_eq, h4, h5, hm]
  rw [hd]
  by_cases hq : query = ""
  · subst hq
    simp [useResourceTurn, hasAgentInvoke, conversationAfter, applyEvent]
  · have hnc : dictContainsKey cache uri = false := by
      rcases hfail with h | h
      · exact absurd h hq
      · exact h
    have hq2 : (query == "") = false := by
      simp [beq_iff_eq, hq]
    simp [useResourceTurn, hq2, hnc, hasAgentInvoke, conversationAfter, applyEvent, hq]

/-- Witness for `use_resource_guards`: `@use_resource:x summarize` without
a prior load is rejected and never reaches the agent. -/
theorem use_resource_guards_witness :
    (driverStep [] "@use_resource:x summarize"
        ⟨Except.ok [], Except.ok [], "", Except.ok []⟩).1 = [] ∧
    hasAgentInvoke (driverStep [] "@use_resource:x summarize"
        ⟨Except.ok [], Except.ok [], "", Except.ok []⟩).2 = false ∧
    conversationAfter (fun _ => ⟨"", []⟩) (fun _ => "") 1 [Message.user "hi"]
        (driverStep [] "@use_resource:x summarize"
          ⟨Except.ok [], Except.ok [], "", Except.ok []⟩).2 =
      Option.some [Message.user "hi"] ∧
    ("summarize" = "" → (driverStep [] "@use_resource:x summarize"
        ⟨Except.ok [], Except.ok [], "", Except.ok []⟩).2 = [Event.rejectedEmptyQuery]) ∧
    ("summarize" ≠ "" → (driverStep [] "@use_resource:x summarize"
        ⟨Except.ok [], Except.ok [], "", Except.ok []⟩).2 = [Event.rejectedResourceNotLoaded]) :=
  use_resource_guards [] "@use_resource:x summarize" "x" "summarize"
    ⟨Except.ok [], Except.ok [], "", Except.ok []⟩ (fun _ => ⟨"", []⟩) (fun _ => "") 1
    [Message.user "hi"] (by decide) (by decide) (by decide) (Or.inr (by decide))

/-- Claim C10: once the driver's `use_resource` path reaches composition —
the query is non-empty and the URI was verified to be cached — the
composed message is exactly the marker-plus-content-plus-query block, so
the composer's error branch is unreachable from that path. -/
theorem use_resource_compose_marker (cache : ResourceCache) (m uri query : String)
    (o : TurnOracles)
    (hm : extract_meta_command m = MetaCommand.use_resource uri query)
    (h4 : pyToLower m ≠ "exit") (h5 : pyToLower m ≠ "quit")
    (hq : query ≠ "") (hc : dictContainsKey cache uri = true) :
    driverStep cache m o =
      (cache, [Event.agentInvoke (usingResourceBlock cache uri query)]) ∧
    inject_resource_into_message cache query uri = usingResourceBlock cache uri query := by
  have hq2 : (query == "") = false := by
    simp [beq_iff_eq, hq]
  have hinj : inject_resource_into_message cache query uri = usingResourceBlock cache uri query := by
    simp [inject_resource_into_message, usingResourceBlock, hc]
  refine ⟨?_, hinj⟩
  simp [driverStep, beq_iff_eq, h4, h5, hm, useResourceTurn, hq2, hc, hinj]

/-- Witness for `use_resource_compose_marker`: with `x` cached the turn
submits the marker block built from the cached content and the query. -/
theorem use_resource_compose_marker_witness :
    driverStep [("x", "hello")] "@use_resource:x what is it?"
        ⟨Except.ok [], Except.ok [], "", Except.ok []⟩ =
      ([("x", "hello")],
        [Event.agentInvoke (usingResourceBlock [("x", "hello")] "x" "what is it?")]) ∧
    inject_resource_into_message [("x", "hello")] "what is it?" "x" =
      usingResourceBlock [("x", "hello")] "x" "what is it?" :=
  use_resource_compose_marker [("x", "hello")] "@use_resource:x what is it?" "x" "what is it?"
    ⟨Except.ok [], Except.ok [], "", Except.ok []⟩
    (by decide) (by decide) (by decide) (by decide) (by decide)

theorem assistCount_append (c1 c2 : List Message) :
    assistCount (c1 ++ c2) = assistCount c1 + assistCount c2 :=
  List.countP_append _ _ _

theorem assistCount_toolResults (exec : ToolRequest → String) (reqs : List ToolRequest) :
    assistCount (toolResults exec reqs) = 0 := by
  induction reqs with
  | nil => rfl
  | cons r t ih =>
    simp only [toolResults, List.map_cons, assistCount, List.countP_cons] at ih ⊢
    simp [ih]

/-- Shape of a whole scripted run of the graph loop: starting from a
conversation holding `pre.length` assistant messages, the loop plays the
remaining rounds of the script — appending, per round, the assistant
message with its tool calls followed by the tool results in request
order — and terminates with the final answer. -/
theorem agentLoop_scripted (ans : String) (exec : ToolRequest → String)
    (rest : List (List ToolRequest)) :
    ∀ (pre : List (List ToolRequest)) (conv : List Message),
      assistCount conv = pre.length →
      (∀ reqs ∈ rest, reqs ≠ ([] : List ToolRequest)) →
      agentLoop (scriptedStub (pre ++ rest) ans) exec (rest.length + 1) conv =
        Option.some (conv ++ (rest.flatMap
          (fun reqs => Message.assistant ⟨"", reqs⟩ :: toolResults exec reqs) ++
          [Message.assistant ⟨ans, []⟩])) := by
  induction rest with
  | nil =>
    intro pre conv hcount _
    have hstub : scriptedStub pre ans conv = ⟨ans, []⟩ := by
      simp [scriptedStub, List.getElem?_eq_none, hcount]
    simp [agentLoop, hstub]
  | cons reqs rest' ih =>
    intro pre conv hcount hne
    have hget : (pre ++ reqs :: rest')[assistCount conv]? = Option.some reqs := by
      rw [hcount, List.getElem?_append_right (Nat.le_refl _)]
      simp
    have hstub : scriptedStub (pre ++ reqs :: rest') ans conv = ⟨"", reqs⟩ := by
      simp [scriptedStub, hget]
    have hnonempty : reqs.isEmpty = false := by
      cases reqs with
      | nil => exact absurd rfl (hne [] (by simp))
      | cons a t => rfl
    have hcount2 : assistCount ((conv ++ [Message.assistant ⟨"", reqs⟩]) ++ toolResults exec reqs) =
        (pre ++ [reqs]).length := by
      rw [assistCount_append, assistCount_append, hcount, assistCount_toolResults]
      simp [assistCount]
    have hne2 : ∀ r ∈ rest', r ≠ ([] : List ToolRequest) := fun r hr => hne r (by simp [hr])
    have ihx := ih (pre ++ [reqs]) ((conv ++ [Message.assistant ⟨"", reqs⟩]) ++ toolResults exec reqs)
      hcount2 hne2
    rw [List.append_assoc pre [reqs] rest'] at ihx
    simp only [List.singleton_append] at ihx
    show agentLoop (scriptedStub (pre ++ reqs :: rest') ans) exec (rest'.length + 1 + 1) conv = _
    rw [agentLoop.eq_2]
    simp only [hstub, hnonempty, Bool.false_eq_true, if_false]
    rw [ihx]
    simp [List.append_assoc]

/-- One turn against the one-tool stub: the user message, the assistant
tool request, its tool result and the final answer are appended, in that
order, to any prior conversation. -/
theorem submitTurn_oneTool (conv : List Message) (u ans : String) (r : ToolRequest)
    (exec : ToolRequest → String) :
    submitTurn (oneToolStub r ans) exec 2 conv u =
      Option.some (conv ++ [Message.user u, Message.assistant ⟨"", [r]⟩,
        Message.toolResult r.name (exec r), Message.assistant ⟨ans, []⟩]) := by
  have h1 : oneToolStub r ans (conv ++ [Message.user u]) = ⟨"", [r]⟩ := by
    simp [oneToolStub, List.getLast?_concat, isToolResultMsg]
  have h2 : oneToolStub r ans (((conv ++ [Message.user u]) ++
      [Message.assistant ⟨"", [r]⟩]) ++ [Message.toolResult r.name (exec r)]) = ⟨ans, []⟩ := by
    simp [oneToolStub, List.getLast?_concat, isToolResultMsg]
  show agentLoop (oneToolStub r ans) exec (1 + 1) (conv ++ [Message.user u]) = _
  rw [agentLoop.eq_2, h1]
  simp only [toolResults, List.map_cons, List.map_nil, List.isEmpty_cons,
    Bool.false_eq_true, if_false]
  rw [agentLoop.eq_2, h2]
  simp [List.append_assoc]

/-- Claim C1: with a model stub that returns one tool request and then a
final answer, the conversation after the turn extends the prior one with
exactly the user message, the assistant tool-request message, the tool
result and the final answer, in that order; and for any script of
nonempty tool rounds the turn appends one alternating (assistant
tool-request, tool-results) block per round, in request order, before the
final answer. -/
theorem agent_turn_message_order (conv : List Message) (u ans : String)
    (r : ToolRequest) (exec : ToolRequest → String)
    (script : List (List ToolRequest))
    (hne : ∀ reqs ∈ script, reqs ≠ ([] : List ToolRequest)) :
    submitTurn (oneToolStub r ans) exec 2 conv u =
      Option.some (conv ++ [Message.user u, Message.assistant ⟨"", [r]⟩,
        Message.toolResult r.name (exec r), Message.assistant ⟨ans, []⟩]) ∧
    submitTurn (scriptedStub script ans) exec (script.length + 1) [] u =
      Option.some (Message.user u :: (script.flatMap
        (fun reqs => Message.assistant ⟨"", reqs⟩ :: toolResults exec reqs) ++
        [Message.assistant ⟨ans, []⟩])) := by
  refine ⟨submitTurn_oneTool conv u ans r exec, ?_⟩
  have h := agentLoop_scripted ans exec script [] [Message.user u]
    (by simp [assistCount]) hne
  simpa [submitTurn] using h

/-- Witness for `agent_turn_message_order`: one `semantic_search` round
followed by the final answer yields the four messages in order. -/
theorem agent_turn_message_order_witness :
    submitTurn (oneToolStub ⟨"semantic_search", "q"⟩ "answer") (fun _ => "out") 2 [] "hi" =
      Option.some [Message.user "hi",
        Message.assistant ⟨"", [⟨"semantic_search", "q"⟩]⟩,
        Message.toolResult "semantic_search" "out",
        Message.assistant ⟨"answer", []⟩] ∧
    submitTurn (scriptedStub [[⟨"semantic_search", "q"⟩]] "answer") (fun _ => "out")
        ([[(⟨"semantic_search", "q"⟩ : ToolRequest)]].length + 1) [] "hi" =
      Option.some (Message.user "hi" :: ([[(⟨"semantic_search", "q"⟩ : ToolRequest)]].flatMap
        (fun reqs => Message.assistant ⟨"", reqs⟩ :: toolResults (fun _ => "out") reqs) ++
        [Message.assistant ⟨"answer", []⟩])) :=
  agent_turn_message_order [] "hi" "answer" ⟨"semantic_search", "q"⟩ (fun _ => "out")
    [[⟨"semantic_search", "q"⟩]] (by decide)
